/-
Verification of the Firefox bookmarks/history launcher plugin
(albert-plugin-python-firefox, single source file) against its
natural-language specification.

The development is a shallow embedding of the plugin source:
  - Python exceptions are the inductive type `PyExc`; fallible code returns
    `Except PyExc _`.
  - Filesystem and database outcomes (file existence, copy success, query
    results) are explicit environment parameters, since the real code only
    observes them through those outcomes.
  - `str.lower` is modelled by `pyLower` (per-character ASCII lowering) and
    f-string rendering of an optional value by `pyStr` (Python renders the
    `None` object as the string "None").
-/
import Mathlib

namespace Firefox

/-- Python exception classes relevant to the plugin, by class:
`FileNotFoundError` (raised by `get_connection` for a missing db file),
`OSError` (e.g. a `shutil.copy2` failure), `sqlite3.Error` (connect,
checkpoint or query failures), `RuntimeError` (raised by `Plugin.__init__`),
and `UnboundLocalError` (a local variable referenced before assignment). -/
inductive PyExc where
  | fileNotFound (msg : String)
  | osError (msg : String)
  | sqliteError (msg : String)
  | runtimeError (msg : String)
  | unboundLocal (msg : String)
  deriving DecidableEq, Repr

/-- Whether an exception is an instance of `sqlite3.Error`; this is the only
class the three extractors catch (`except sqlite3.Error as e`). -/
def PyExc.isSqlite : PyExc → Bool
  | .sqliteError _ => true
  | _ => false

/-- Python truthiness of an optional string: `None` and the empty string are
falsy, every other string is truthy. -/
def pyTruthyStr : Option String → Bool
  | none => false
  | some s => s ≠ ""

/-- Rendering of an optional string by an f-string: `None` prints as
the four characters "None", a string prints as itself. -/
def pyStr : Option String → String
  | none => "None"
  | some s => s

/-- Model of Python `str.lower`: lower-case every character (ASCII). -/
def pyLower (s : String) : String :=
  ⟨s.data.map Char.toLower⟩

/-- Model of Python `str.startswith`: character-prefix test. -/
def pyStartsWith (s pre : String) : Bool :=
  pre.data.isPrefixOf s.data

/-! ## Profile locator (`get_available_profiles`, lines 25-47)

The locator parses `profiles.ini`. We model the parse outcome as an
environment field: either a parse error (any exception raised inside the
`try` block, caught at line 44) or the list of INI sections in file order.
A section is its name plus its optional `Path` key; existence of the two
database files under a declared profile path is an environment predicate. -/

/-- One section of `profiles.ini`: its name and the value of its `Path` key,
when that key is declared. -/
structure IniSection where
  name : String
  path : Option String
  deriving DecidableEq, Repr

/-- Environment observed by `get_available_profiles`: whether the Firefox
root directory exists, the outcome of parsing `profiles.ini` (sections in
INI order, or an exception message), and, for each candidate profile path,
whether `places.sqlite` and `favicons.sqlite` exist in its directory. -/
structure LocatorEnv where
  rootExists : Bool
  parse : Except String (List IniSection)
  placesExists : String → Bool
  faviconsExists : String → Bool

/-- The `for section in config.sections()` loop of `get_available_profiles`:
append `config[section]["Path"]` whenever the section name starts with
"Profile", the `Path` key is declared, and both database files exist under
the declared path. `profiles` is the accumulator list. -/
def profiles_loop (env : LocatorEnv) : List IniSection → List String → List String
  | [], profiles => profiles
  | ⟨name, some p⟩ :: rest, profiles =>
    if pyStartsWith name "Profile" && env.placesExists p && env.faviconsExists p then
      profiles_loop env rest (profiles ++ [p])
    else
      profiles_loop env rest profiles
  | ⟨_, none⟩ :: rest, profiles => profiles_loop env rest profiles

/-- Embedding of `get_available_profiles` (lines 25-47): empty list when the
root does not exist; otherwise run the section loop over the parsed
sections; any parse exception is caught, logged as a warning, and the
(still empty) accumulator is returned. The function is total: it never
raises. -/
def get_available_profiles (env : LocatorEnv) : List String :=
  if !env.rootExists then []
  else
    match env.parse with
    | .ok sections => profiles_loop env sections []
    | .error _ => []

/-! ## Safe reader (`get_connection`, lines 50-84)

`get_connection` is a context manager: it checks that the database file
exists (raising `FileNotFoundError` otherwise, before any other I/O),
creates a temporary directory, copies the database and its `-wal`/`-shm`
sidecars, connects to the copy, checkpoints the WAL, yields the connection
to the body, and on every exit path closes the connection (inner `finally`)
and recursively deletes the temporary directory (outer `finally`).

We model it as a function of the environment and of the body's outcome,
returning the overall outcome together with a resource trace. -/

/-- Environment observed by one `get_connection` session: the database path
(used in the `FileNotFoundError` message), whether the file exists, and
whether the copy, the `sqlite3.connect` call, and the
`PRAGMA wal_checkpoint(TRUNCATE)` statement succeed. -/
structure DBEnv where
  path : String
  dbExists : Bool
  copyOk : Bool
  connectOk : Bool
  checkpointOk : Bool
  deriving DecidableEq, Repr

/-- Resource trace of one `get_connection` session: whether the temporary
directory was created / deleted and whether the SQLite connection was
opened / closed. -/
structure ConnTrace where
  tempDirCreated : Bool
  tempDirDeleted : Bool
  connOpened : Bool
  connClosed : Bool
  deriving DecidableEq, Repr

/-- Embedding of `get_connection` (lines 50-84), applied to the outcome
`body` of the `with` body that receives the yielded connection. Control
flow follows the source: existence check before any I/O; `mkdtemp`; copy
(outer `try`, so a failure still deletes the temporary directory);
`sqlite3.connect`; inner `try` running the checkpoint and the body with
`conn.close()` in its `finally`; outer `finally` deleting the directory. -/
def get_connection (env : DBEnv) (body : Except PyExc α) :
    Except PyExc α × ConnTrace :=
  if !env.dbExists then
    (.error (.fileNotFound ("Places database not found at " ++ env.path)),
     ⟨false, false, false, false⟩)
  else if !env.copyOk then
    (.error (.osError "copy failed"), ⟨true, true, false, false⟩)
  else if !env.connectOk then
    (.error (.sqliteError "unable to open database file"), ⟨true, true, false, false⟩)
  else if !env.checkpointOk then
    (.error (.sqliteError "wal_checkpoint failed"), ⟨true, true, true, true⟩)
  else
    (body, ⟨true, true, true, true⟩)

/-! ## Record extractors (lines 87-151)

Each extractor wraps a `get_connection` session around one query and
catches exactly `sqlite3.Error`, returning an empty result in that case;
any other exception propagates. The query outcome is a parameter. -/

/-- One row of the bookmarks query (line 94): guid, title (nullable),
url (non-null by the WHERE clause), url_hash. -/
structure BookmarkRow where
  guid : String
  title : Option String
  url : String
  url_hash : Nat
  deriving DecidableEq, Repr

/-- One row of the history query (line 117): guid, title (nullable),
url (non-null by the WHERE clause). -/
structure HistoryRow where
  guid : String
  title : Option String
  url : String
  deriving DecidableEq, Repr

/-- Embedding of `get_bookmarks` (lines 87-107): run the query inside a
`get_connection` session; `except sqlite3.Error` logs critically and
returns the empty list; any other exception propagates. -/
def get_bookmarks (env : DBEnv) (query : Except PyExc (List BookmarkRow)) :
    Except PyExc (List BookmarkRow) :=
  match (get_connection env query).1 with
  | .ok rows => .ok rows
  | .error (.sqliteError _) => .ok []
  | .error e => .error e

/-- Embedding of `get_history` (lines 110-130): same structure as
`get_bookmarks`, over the history query. -/
def get_history (env : DBEnv) (query : Except PyExc (List HistoryRow)) :
    Except PyExc (List HistoryRow) :=
  match (get_connection env query).1 with
  | .ok rows => .ok rows
  | .error (.sqliteError _) => .ok []
  | .error e => .error e

/-- Favicon bytes are modelled as a list of byte values. -/
abbrev Bytes := List Nat

/-- The favicon mapping built by the dict comprehension at line 147:
an association list from page url hash to icon bytes, in row order. -/
abbrev FaviconDict := List (Nat × Bytes)

/-- Python `dict.get` over the favicon mapping: the value of the last
binding of the key (later comprehension entries overwrite earlier ones),
or `none` when the key is absent. -/
def pyDictGet (m : FaviconDict) (k : Nat) : Option Bytes :=
  match m.reverse.find? (fun p => p.1 == k) with
  | some p => some p.2
  | none => none

/-- Embedding of `get_favicons_data` (lines 133-151): run the favicons
query inside a `get_connection` session; `except sqlite3.Error` logs a
warning and returns the empty mapping; any other exception propagates. -/
def get_favicons_data (env : DBEnv) (query : Except PyExc FaviconDict) :
    Except PyExc FaviconDict :=
  match (get_connection env query).1 with
  | .ok rows => .ok rows
  | .error (.sqliteError _) => .ok []
  | .error e => .error e

/-! ## Index builder (`Plugin.update_index_items_task`, lines 246-321)

The item-construction portion of the task (lines 263-319) is embedded as a
pure function of the extractor outputs, the favicon mapping and the
history flag. The host-side `StandardItem`/`IndexItem` pair is modelled by
`IndexedItem`; the composed icon factories are modelled by `IconSpec`. The
Python local variable `favicon_path` is threaded explicitly as an
`Option String`: it is unassigned (`none`) until the first bookmark with
truthy favicon data, and the fallback branch at line 281 evaluates it as
the default argument `p=favicon_path` of the lambda — raising
`UnboundLocalError` when it is still unassigned. -/

/-- Which loop emitted an item (observable in the source through the icon:
bookmarks get the favicon-or-globe composition, history the clock glyph). -/
inductive Source where
  | bookmark
  | history
  deriving DecidableEq, Repr

/-- Model of the three icon factories built by the task: the favicon file
composition (line 277, carrying the written file name), the globe-glyph
composition (line 281), and the clock-glyph composition (line 309). -/
inductive IconSpec where
  | faviconFile (path : String)
  | globeGlyph
  | clockGlyph
  deriving DecidableEq, Repr

/-- Model of one emitted index entry: the `StandardItem` fields the claims
mention (id, text, subtext, icon) plus the emitting loop and the
`IndexItem` search string. -/
structure IndexedItem where
  id : String
  text : String
  subtext : String
  icon : IconSpec
  source : Source
  string : String
  deriving DecidableEq, Repr

/-- The display text `title if title else url` (lines 286 and 307). -/
def make_item_text (title : Option String) (url : String) : String :=
  if pyTruthyStr title then pyStr title else url

/-- The search string of an `IndexItem`: the f-string rendering of
the title and url, lower-cased (lines 296 and 318). -/
def make_search_string (title : Option String) (url : String) : String :=
  pyLower (pyStr title ++ " " ++ url)

/-- The `StandardItem`/`IndexItem` built for one bookmark row
(lines 284-296), given the icon resolved for it. -/
def mkBookmarkItem (r : BookmarkRow) (icon : IconSpec) : IndexedItem :=
  { id := r.guid
    text := make_item_text r.title r.url
    subtext := r.url
    icon := icon
    source := .bookmark
    string := make_search_string r.title r.url }

/-- The `StandardItem`/`IndexItem` built for one history row
(lines 305-318). -/
def mkHistoryItem (r : HistoryRow) : IndexedItem :=
  { id := r.guid
    text := make_item_text r.title r.url
    subtext := r.url
    icon := .clockGlyph
    source := .history
    string := make_search_string r.title r.url }

/-- Icon resolution for a bookmark row (lines 271-283). `favPath` is the
current value of the Python local `favicon_path` (`none` when not yet
assigned). When `favicons.get(url_hash)` is truthy, the bytes are written
to `favicon_{guid}.png` and the favicon composition is used, assigning
`favicon_path`; otherwise the fallback lambda is created — its default
argument `p=favicon_path` is evaluated at creation, so an unassigned
`favicon_path` raises `UnboundLocalError` — and the globe composition is
used. -/
def resolve_bookmark_icon (favicons : FaviconDict) (r : BookmarkRow)
    (favPath : Option String) : Except PyExc (IconSpec × Option String) :=
  match pyDictGet favicons r.url_hash with
  | some data =>
    if data ≠ [] then
      .ok (.faviconFile ("favicon_" ++ r.guid ++ ".png"),
           some ("favicon_" ++ r.guid ++ ".png"))
    else
      match favPath with
      | some p => .ok (.globeGlyph, some p)
      | none =>
        .error (.unboundLocal
          "local variable favicon_path referenced before assignment")
  | none =>
    match favPath with
    | some p => .ok (.globeGlyph, some p)
    | none =>
      .error (.unboundLocal
        "local variable favicon_path referenced before assignment")

/-- The `for guid, title, url, url_hash in bookmarks` loop
(lines 266-296): skip rows whose url is in `seen_urls`, otherwise mark the
url seen, resolve the icon and append the item. Returns the emitted items,
the final seen set and the final `favicon_path`, or the first exception
raised. -/
def bookmarks_loop (favicons : FaviconDict) :
    List BookmarkRow → List String → Option String →
    Except PyExc (List IndexedItem × List String × Option String)
  | [], seen, favPath => .ok ([], seen, favPath)
  | r :: rest, seen, favPath =>
    if r.url ∈ seen then
      bookmarks_loop favicons rest seen favPath
    else
      match resolve_bookmark_icon favicons r favPath with
      | .error e => .error e
      | .ok (icon, favPath') =>
        match bookmarks_loop favicons rest (r.url :: seen) favPath' with
        | .error e => .error e
        | .ok (items, seen', favPath'') =>
          .ok (mkBookmarkItem r icon :: items, seen', favPath'')

/-- The `for guid, title, url in history` loop (lines 301-318): same
dedup against the shared `seen_urls` set, clock icon, no exception. -/
def history_loop : List HistoryRow → List String → List IndexedItem
  | [], _ => []
  | r :: rest, seen =>
    if r.url ∈ seen then
      history_loop rest seen
    else
      mkHistoryItem r :: history_loop rest (r.url :: seen)

/-- Embedding of the item-construction portion of
`Plugin.update_index_items_task` (lines 263-319): run the bookmark loop
from an empty seen set and an unassigned `favicon_path`, then, when
history indexing is enabled, the history loop against the same seen set;
the result is the complete replacement item list handed to
`setIndexItems`. -/
def build_index_items (bookmarks : List BookmarkRow) (favicons : FaviconDict)
    (history : List HistoryRow) (index_history : Bool) :
    Except PyExc (List IndexedItem) :=
  match bookmarks_loop favicons bookmarks [] none with
  | .error e => .error e
  | .ok (items, seen, _) =>
    if index_history then
      .ok (items ++ history_loop history seen)
    else
      .ok items

/-! ## Plugin initialization (`Plugin.__init__`, lines 155-187) -/

/-- Environment observed by `Plugin.__init__`: the locator environment for
the Firefox data directory plus the two stored configuration values
(`readConfig` returns `None` when a value was never written). -/
structure PluginEnv where
  loc : LocatorEnv
  storedProfile : Option String
  storedIndexHistory : Option Bool

/-- Plugin state after a successful `__init__`: discovered profiles, the
selected profile path, the history flag, and whether each configuration
value was written back during initialization. -/
structure PluginState where
  profiles : List String
  current_profile_path : String
  index_history : Bool
  wroteProfile : Bool
  wroteIndexHistory : Bool
  deriving DecidableEq, Repr

/-- Embedding of `Plugin.__init__` (lines 171-187): discover profiles and
raise `RuntimeError` when none are found; otherwise read the stored
profile path and replace it by `profiles[0]` (writing it back) whenever it
is `None` or not in the discovered list; read the stored history flag and
default it to `False` (writing it back) when it is `None`. -/
def plugin_init (env : PluginEnv) : Except PyExc PluginState :=
  match get_available_profiles env.loc with
  | [] => .error (.runtimeError "No Firefox profiles found")
  | p0 :: rest =>
    let profiles := p0 :: rest
    let storedValid : Bool :=
      match env.storedProfile with
      | some s => decide (s ∈ profiles)
      | none => false
    let current := if storedValid then env.storedProfile.getD p0 else p0
    let wroteProfile := !storedValid
    let indexHistory := env.storedIndexHistory.getD false
    let wroteHistory := env.storedIndexHistory.isNone
    .ok { profiles := profiles
          current_profile_path := current
          index_history := indexHistory
          wroteProfile := wroteProfile
          wroteIndexHistory := wroteHistory }

/-! ## Refresh scheduler (`Plugin.updateIndexItems`, lines 240-244)

`updateIndexItems` runs on the host control thread: it joins the in-flight
worker thread when one is alive (the worker runs to completion — it is
never cancelled) and then starts exactly one new worker. All triggers
(startup and the two property setters) execute on that single control
thread, and every configuration write happens before its
`updateIndexItems` call, so the configuration a worker reads at run start
is the configuration current when its trigger ran. We model a trigger as
carrying that configuration, a worker as an id plus its configuration
snapshot, and record a trace of start/finish events. -/

/-- The configuration a refresh run reads at run start (lines 247-248 and
298): the selected profile path and the history flag. -/
structure Config where
  profile : String
  index_history : Bool
  deriving DecidableEq, Repr

/-- Scheduler trace events: a worker starts (with the configuration it
reads at run start) or finishes. -/
inductive SchedEvent where
  | start (id : Nat) (cfg : Config)
  | finish (id : Nat)
  deriving DecidableEq, Repr

/-- Scheduler state: the in-flight worker (`self.thread`, with its
configuration snapshot), a fresh-id counter, the configuration whose built
index is currently installed (the last completed run's `setIndexItems`),
and the event trace. -/
structure SchedState where
  active : Option (Nat × Config)
  nextId : Nat
  installed : Option Config
  trace : List SchedEvent
  deriving DecidableEq, Repr

/-- The scheduler's initial state: no worker, nothing installed. -/
def initSched : SchedState := ⟨none, 0, none, []⟩

/-- Embedding of `Plugin.updateIndexItems` (lines 240-244) for a trigger
whose current configuration is `cfg`: join the in-flight worker when one
is alive (it completes, installing its index), then start one new worker
reading `cfg` at run start. -/
def updateIndexItems (cfg : Config) (s : SchedState) : SchedState :=
  let s1 :=
    match s.active with
    | some (i, c) =>
      { s with active := none, installed := some c,
               trace := s.trace ++ [SchedEvent.finish i] }
    | none => s
  { s1 with active := some (s1.nextId, cfg), nextId := s1.nextId + 1,
            trace := s1.trace ++ [SchedEvent.start s1.nextId cfg] }

/-- The final join of `Plugin.__del__` (lines 189-191): the last worker,
when still alive, runs to completion and installs its index. -/
def joinFinal (s : SchedState) : SchedState :=
  match s.active with
  | some (i, c) =>
    { s with active := none, installed := some c,
             trace := s.trace ++ [SchedEvent.finish i] }
  | none => s

/-- Run a whole sequence of refresh triggers (each carrying the
configuration current when it fires) from the initial state, then the
final join. -/
def runTriggers (cfgs : List Config) : SchedState :=
  joinFinal (cfgs.foldl (fun s c => updateIndexItems c s) initSched)

/-- One step of worker counting: a start increments, a finish decrements. -/
def schedStep (n : Nat) (e : SchedEvent) : Nat :=
  match e with
  | .start _ _ => n + 1
  | .finish _ => n - 1

/-- Number of workers active after a trace: starts increment, finishes
decrement. -/
def activeCount (tr : List SchedEvent) : Nat :=
  tr.foldl schedStep 0

/-- Single-flight checker: consume a trace with a "worker running" flag;
a start while running, or a finish while idle, is a violation (`none`);
otherwise return the flag after the trace. -/
def sfRun (b : Bool) : List SchedEvent → Option Bool
  | [] => some b
  | .start _ _ :: rest => if b then none else sfRun true rest
  | .finish _ :: rest => if b then sfRun false rest else none

/-! ## Helper lemmas -/

theorem pyLower_append (a b : String) : pyLower (a ++ b) = pyLower a ++ pyLower b := by
  apply String.ext
  simp [pyLower, String.data_append]

theorem make_search_string_none (u : String) :
    make_search_string none u = "none " ++ pyLower u := by
  show pyLower (pyStr none ++ " " ++ u) = "none " ++ pyLower u
  rw [pyLower_append]
  congr 1

/-- The section predicate of the locator: the `Path` value of a section
that passes all three filters at lines 37-41, `none` otherwise. -/
theorem profiles_loop_eq (env : LocatorEnv) (ss : List IniSection) (acc : List String) :
    profiles_loop env ss acc =
      acc ++ ss.filterMap (fun s => s.path.bind (fun p =>
        if pyStartsWith s.name "Profile" && env.placesExists p && env.faviconsExists p
        then some p else none)) := by
  induction ss generalizing acc with
  | nil => simp [profiles_loop]
  | cons s rest ih =>
    obtain ⟨nm, pathOpt⟩ := s
    cases pathOpt with
    | none => simpa [profiles_loop] using ih acc
    | some p =>
      have hstep : profiles_loop env (⟨nm, some p⟩ :: rest) acc =
          if pyStartsWith nm "Profile" && env.placesExists p && env.faviconsExists p then
            profiles_loop env rest (acc ++ [p])
          else profiles_loop env rest acc := rfl
      have hfun : ((⟨nm, some p⟩ : IniSection).path.bind fun q =>
          if pyStartsWith (⟨nm, some p⟩ : IniSection).name "Profile"
              && env.placesExists q && env.faviconsExists q
          then some q else none) =
          if pyStartsWith nm "Profile" && env.placesExists p && env.faviconsExists p
          then some p else none := rfl
      rw [hstep, List.filterMap_cons, hfun]
      rcases Bool.eq_false_or_eq_true
          (pyStartsWith nm "Profile" && env.placesExists p && env.faviconsExists p)
        with hc | hc
      · rw [hc, if_pos rfl, if_pos rfl, ih]
        simp
      · rw [hc, if_neg Bool.false_ne_true, if_neg Bool.false_ne_true, ih]

/-! ## Claims -/

/-- Claim C5: `get_available_profiles` never raises (it is a total
function); if the root directory does not exist it returns the empty list;
on a parse failure it returns the empty list; otherwise it returns, in INI
section order, exactly the `Path` values of sections whose name starts
with "Profile", that declare a `Path` key, and whose directory contains
both `places.sqlite` and `favicons.sqlite`; every returned path passes
both existence checks (so it exists under the root). -/
theorem get_available_profiles_spec (env : LocatorEnv) :
    (env.rootExists = false → get_available_profiles env = []) ∧
    (∀ msg, env.parse = .error msg → get_available_profiles env = []) ∧
    (∀ ss, env.parse = .ok ss → env.rootExists = true →
      get_available_profiles env =
        ss.filterMap (fun s => s.path.bind (fun p =>
          if pyStartsWith s.name "Profile" && env.placesExists p && env.faviconsExists p
          then some p else none))) ∧
    (∀ p, p ∈ get_available_profiles env →
      env.placesExists p = true ∧ env.faviconsExists p = true) := by
  refine ⟨fun h => by simp [get_available_profiles, h], ?_, ?_, ?_⟩
  · intro msg h
    cases hr : env.rootExists <;> simp [get_available_profiles, h, hr]
  · intro ss h hr
    simp [get_available_profiles, h, hr, profiles_loop_eq]
  · intro p hp
    cases hr : env.rootExists with
    | false => simp [get_available_profiles, hr] at hp
    | true =>
      cases hpar : env.parse with
      | error msg => simp [get_available_profiles, hr, hpar] at hp
      | ok ss =>
        rw [get_available_profiles, hr, hpar] at hp
        simp only [Bool.not_true, Bool.false_eq_true, if_false] at hp
        rw [profiles_loop_eq] at hp
        simp only [List.nil_append, List.mem_filterMap] at hp
        obtain ⟨s, _, hs⟩ := hp
        cases hsp : s.path with
        | none => simp [hsp] at hs
        | some q =>
          rw [hsp, Option.some_bind] at hs
          rcases Bool.eq_false_or_eq_true
              (pyStartsWith s.name "Profile" && env.placesExists q && env.faviconsExists q)
            with hc | hc <;> rw [hc] at hs
          · simp at hs
            subst hs
            simp only [Bool.and_eq_true] at hc
            exact ⟨hc.1.2, hc.2⟩
          · simp at hs

/-- Witness for C5 at a concrete environment: one valid profile section, a
non-`Profile` section, a section without `Path`, and a `Profile` section
whose databases are missing. -/
theorem get_available_profiles_spec_witness :
    get_available_profiles
      ⟨true,
       Except.ok [⟨"Profile0", some "abc.default"⟩, ⟨"General", some "x"⟩,
                  ⟨"Profile1", none⟩, ⟨"Profile2", some "gone"⟩],
       fun p => p == "abc.default", fun p => p == "abc.default"⟩ =
      ["abc.default"] := by
  rw [(get_available_profiles_spec _).2.2.1 _ rfl rfl]
  decide

/-- Claim C4: `get_connection` returns a `FileNotFoundError` if and only if
the database file does not exist (given a body that does not itself raise
`FileNotFoundError`); in that case nothing was created — no copy or other
I/O happened; and on every exit path the connection-closed flag equals the
connection-opened flag and the temporary-directory-deleted flag equals the
created flag: whatever was acquired is released. -/
theorem get_connection_spec {α : Type} (env : DBEnv) (body : Except PyExc α)
    (hbody : ∀ m, body ≠ .error (.fileNotFound m)) :
    ((∃ m, (get_connection env body).1 = .error (.fileNotFound m)) ↔
        env.dbExists = false) ∧
    (env.dbExists = false →
        (get_connection env body).2 = ⟨false, false, false, false⟩) ∧
    (get_connection env body).2.connClosed = (get_connection env body).2.connOpened ∧
    (get_connection env body).2.tempDirDeleted = (get_connection env body).2.tempDirCreated := by
  rcases env with ⟨p, de, co, cn, ck⟩
  cases de with
  | false => simp [get_connection]
  | true =>
    cases co with
    | false => simp [get_connection]
    | true =>
      cases cn with
      | false => simp [get_connection]
      | true =>
        cases ck with
        | false => simp [get_connection]
        | true =>
          refine ⟨⟨?_, fun h => Bool.noConfusion h⟩, fun h => Bool.noConfusion h, rfl, rfl⟩
          rintro ⟨m, hm⟩
          exact absurd hm (hbody m)

/-- Witness for C4: a missing database file yields the all-false resource
trace — no temporary directory, no connection. -/
theorem get_connection_spec_witness :
    (get_connection (⟨"places.sqlite", false, true, true, true⟩ : DBEnv)
        (Except.ok ([] : List BookmarkRow))).2 = ⟨false, false, false, false⟩ :=
  (get_connection_spec _ _ (fun _ h => by cases h)).2.1 rfl

/-- Counterexample to C2: with an absent profiles root (so no profiles are
discovered), `Plugin.__init__` does not leave the plugin loaded with an
empty index — it raises `RuntimeError`, so initialization never succeeds. -/
theorem plugin_init_no_profiles_counterexample :
    ¬ ∃ st, plugin_init
        ⟨⟨false, Except.ok [], fun _ => false, fun _ => false⟩, none, none⟩ =
      .ok st := by
  rintro ⟨st, h⟩
  rw [show plugin_init
        ⟨⟨false, Except.ok [], fun _ => false, fun _ => false⟩, none, none⟩ =
      .error (.runtimeError "No Firefox profiles found") from rfl] at h
  exact Except.noConfusion h

/-- Claim C2 (amended): when the profiles root is absent or no valid
profiles are discovered at startup (in either case `get_available_profiles`
returns the empty list), `Plugin.__init__` raises
`RuntimeError("No Firefox profiles found")` — the plugin fails to
initialize instead of remaining loaded with an empty index. -/
theorem plugin_init_raises_when_no_profiles (env : PluginEnv)
    (h : get_available_profiles env.loc = []) :
    plugin_init env = .error (.runtimeError "No Firefox profiles found") := by
  simp [plugin_init, h]

/-- Witness for the amended C2: an existing root whose `profiles.ini`
fails to parse also yields the `RuntimeError`. -/
theorem plugin_init_raises_when_no_profiles_witness :
    plugin_init
        ⟨⟨true, Except.error "parse error", fun _ => true, fun _ => true⟩, none, none⟩ =
      .error (.runtimeError "No Firefox profiles found") :=
  plugin_init_raises_when_no_profiles _ rfl

/-- Counterexample to C1: with the places database file missing,
`get_bookmarks` does not return an empty list — the `FileNotFoundError`
raised by `get_connection` is not a `sqlite3.Error`, so it propagates to
the caller (and hence into the refresh run). -/
theorem get_bookmarks_missing_db_propagates :
    get_bookmarks ⟨"places.sqlite", false, true, true, true⟩ (Except.ok []) =
      .error (.fileNotFound "Places database not found at places.sqlite") := rfl

/-- Claim C1 (amended): each extractor catches exactly `sqlite3.Error`
raised during Safe Reader acquisition (connect, checkpoint) or query,
logging it and returning an empty result; but an exception that is not a
`sqlite3.Error` — a missing database file (`FileNotFoundError`) or a copy
failure (`OSError`) — propagates to the caller unchanged. -/
theorem extractor_error_policy (env : DBEnv)
    (qb : Except PyExc (List BookmarkRow)) (qh : Except PyExc (List HistoryRow))
    (qf : Except PyExc FaviconDict) :
    ((∀ m, (get_connection env qb).1 = .error (.sqliteError m) →
        get_bookmarks env qb = .ok []) ∧
     (∀ e, e.isSqlite = false → (get_connection env qb).1 = .error e →
        get_bookmarks env qb = .error e) ∧
     (∀ rows, (get_connection env qb).1 = .ok rows →
        get_bookmarks env qb = .ok rows)) ∧
    ((∀ m, (get_connection env qh).1 = .error (.sqliteError m) →
        get_history env qh = .ok []) ∧
     (∀ e, e.isSqlite = false → (get_connection env qh).1 = .error e →
        get_history env qh = .error e) ∧
     (∀ rows, (get_connection env qh).1 = .ok rows →
        get_history env qh = .ok rows)) ∧
    ((∀ m, (get_connection env qf).1 = .error (.sqliteError m) →
        get_favicons_data env qf = .ok []) ∧
     (∀ e, e.isSqlite = false → (get_connection env qf).1 = .error e →
        get_favicons_data env qf = .error e) ∧
     (∀ rows, (get_connection env qf).1 = .ok rows →
        get_favicons_data env qf = .ok rows)) := by
  refine ⟨⟨?_, ?_, ?_⟩, ⟨?_, ?_, ?_⟩, ⟨?_, ?_, ?_⟩⟩
  · intro m hm; simp [get_bookmarks, hm]
  · intro e he hm; cases e <;> simp_all [get_bookmarks, PyExc.isSqlite]
  · intro rows hm; simp [get_bookmarks, hm]
  · intro m hm; simp [get_history, hm]
  · intro e he hm; cases e <;> simp_all [get_history, PyExc.isSqlite]
  · intro rows hm; simp [get_history, hm]
  · intro m hm; simp [get_favicons_data, hm]
  · intro e he hm; cases e <;> simp_all [get_favicons_data, PyExc.isSqlite]
  · intro rows hm; simp [get_favicons_data, hm]

/-- Witness for the amended C1: a failing `sqlite3.connect` (a
`sqlite3.Error`) is swallowed by all three extractors, which return the
empty list / empty mapping. -/
theorem extractor_error_policy_witness :
    get_bookmarks ⟨"places.sqlite", true, true, false, true⟩ (Except.ok []) = .ok [] ∧
    get_history ⟨"places.sqlite", true, true, false, true⟩ (Except.ok []) = .ok [] ∧
    get_favicons_data ⟨"favicons.sqlite", true, true, false, true⟩ (Except.ok []) = .ok [] :=
  ⟨(extractor_error_policy _ _ (Except.ok []) (Except.ok [])).1.1 _ rfl,
   (extractor_error_policy _ (Except.ok []) _ (Except.ok [])).2.1.1 _ rfl,
   (extractor_error_policy _ (Except.ok []) (Except.ok []) _).2.2.1 _ rfl⟩

/-- Claim C10: whenever `Plugin.__init__` succeeds, the selected profile
path is a member of the discovered profile list; when the stored
configuration value is absent or not among the discovered profiles, the
first discovered profile is selected and written back to the
configuration store. -/
theorem plugin_init_selects_valid_profile (env : PluginEnv) (st : PluginState)
    (h : plugin_init env = .ok st) :
    st.profiles = get_available_profiles env.loc ∧
    st.current_profile_path ∈ st.profiles ∧
    ((∀ s, env.storedProfile = some s → s ∉ st.profiles) →
      st.current_profile_path = st.profiles.headD "" ∧ st.wroteProfile = true) := by
  cases hgp : get_available_profiles env.loc with
  | nil =>
    rw [plugin_init, hgp] at h
    exact Except.noConfusion h
  | cons p0 rest =>
    rw [plugin_init, hgp] at h
    simp only [Except.ok.injEq] at h
    subst h
    cases hs : env.storedProfile with
    | none =>
      refine ⟨rfl, ?_, ?_⟩
      · simp [hs]
      · intro _
        simp [hs]
    | some s =>
      by_cases hm : s ∈ p0 :: rest
      · refine ⟨rfl, ?_, ?_⟩
        · simp [hs, hm]
        · intro hns
          exact absurd hm (by simpa using hns s rfl)
      · refine ⟨rfl, ?_, ?_⟩
        · simp [hs, hm]
        · intro _
          simp [hs, hm]

/-- Witness for C10: a stored profile not among the discovered ones is
replaced by the first discovered profile and written back. -/
theorem plugin_init_selects_valid_profile_witness :
    (⟨["a.default", "b.default"], "a.default", false, true, true⟩
        : PluginState).current_profile_path ∈
      (⟨["a.default", "b.default"], "a.default", false, true, true⟩
        : PluginState).profiles ∧
    (⟨["a.default", "b.default"], "a.default", false, true, true⟩
        : PluginState).wroteProfile = true := by
  have h := plugin_init_selects_valid_profile
    ⟨⟨true,
      Except.ok [⟨"Profile0", some "a.default"⟩, ⟨"Profile1", some "b.default"⟩],
      fun p => p == "a.default" || p == "b.default",
      fun p => p == "a.default" || p == "b.default"⟩, some "zzz", none⟩
    ⟨["a.default", "b.default"], "a.default", false, true, true⟩ rfl
  exact ⟨h.2.1, (h.2.2 (by rintro s hs; cases hs; decide)).2⟩

/-- Master invariant of the bookmark loop: every emitted item comes from a
row of the input list via `mkBookmarkItem`; emitted urls were not already
seen; the emitted urls are pairwise distinct; the final seen set consists
of the initial seen set plus the emitted urls; and every input row's url
is in the final seen set. -/
theorem bookmarks_loop_spec (fav : FaviconDict) :
    ∀ (bs : List BookmarkRow) (seen : List String) (fp : Option String)
      (items : List IndexedItem) (seen' : List String) (fp' : Option String),
      bookmarks_loop fav bs seen fp = .ok (items, seen', fp') →
      (∀ it ∈ items, ∃ r icon, r ∈ bs ∧ it = mkBookmarkItem r icon) ∧
      (∀ it ∈ items, it.subtext ∉ seen) ∧
      (items.map (fun it => it.subtext)).Nodup ∧
      (∀ u, u ∈ seen' ↔ u ∈ seen ∨ u ∈ items.map (fun it => it.subtext)) ∧
      (∀ r ∈ bs, r.url ∈ seen') := by
  intro bs
  induction bs with
  | nil =>
    intro seen fp items seen' fp' h
    rw [bookmarks_loop] at h
    simp only [Except.ok.injEq, Prod.mk.injEq] at h
    obtain ⟨h1, h2, _⟩ := h
    subst h1; subst h2
    simp
  | cons r rest ih =>
    intro seen fp items seen' fp' h
    rw [bookmarks_loop] at h
    by_cases hu : r.url ∈ seen
    · rw [if_pos hu] at h
      obtain ⟨hmem, hnew, hnd, hseen, hcov⟩ := ih seen fp items seen' fp' h
      refine ⟨?_, hnew, hnd, hseen, ?_⟩
      · intro it hit
        obtain ⟨r', icon, hr', heq⟩ := hmem it hit
        exact ⟨r', icon, List.mem_cons_of_mem _ hr', heq⟩
      · intro r' hr'
        rcases List.mem_cons.mp hr' with hr'' | hr''
        · subst hr''
          exact (hseen r'.url).mpr (Or.inl hu)
        · exact hcov r' hr''
    · rw [if_neg hu] at h
      cases hres : resolve_bookmark_icon fav r fp with
      | error e =>
        simp only [hres] at h
        exact Except.noConfusion h
      | ok pair =>
        obtain ⟨icon, fp2⟩ := pair
        simp only [hres] at h
        cases hrec : bookmarks_loop fav rest (r.url :: seen) fp2 with
        | error e =>
          simp only [hrec] at h
          exact Except.noConfusion h
        | ok trip =>
          obtain ⟨items2, seen2, fp3⟩ := trip
          simp only [hrec, Except.ok.injEq, Prod.mk.injEq] at h
          obtain ⟨h1, h2, _⟩ := h
          subst h1; subst h2
          obtain ⟨hmem, hnew, hnd, hseen, hcov⟩ :=
            ih (r.url :: seen) fp2 items2 seen2 fp3 hrec
          have hsubtext : (mkBookmarkItem r icon).subtext = r.url := rfl
          refine ⟨?_, ?_, ?_, ?_, ?_⟩
          · intro it hit
            rcases List.mem_cons.mp hit with hit' | hit'
            · exact ⟨r, icon, List.mem_cons_self r rest, hit'⟩
            · obtain ⟨r', icon', hr', heq⟩ := hmem it hit'
              exact ⟨r', icon', List.mem_cons_of_mem _ hr', heq⟩
          · intro it hit
            rcases List.mem_cons.mp hit with hit' | hit'
            · subst hit'
              rw [hsubtext]
              exact hu
            · exact fun hc => (hnew it hit') (List.mem_cons_of_mem _ hc)
          · simp only [List.map_cons, hsubtext]
            refine List.nodup_cons.mpr ⟨?_, hnd⟩
            intro hc
            obtain ⟨it, hit, hiteq⟩ := List.mem_map.mp hc
            exact (hnew it hit) (hiteq ▸ List.mem_cons_self _ _)
          · intro u
            rw [hseen u]
            simp only [List.map_cons, hsubtext, List.mem_cons]
            tauto
          · intro r' hr'
            rcases List.mem_cons.mp hr' with hr'' | hr''
            · subst hr''
              exact (hseen r'.url).mpr (Or.inl (List.mem_cons_self _ _))
            · exact hcov r' hr''

/-- Master invariant of the history loop: every emitted item comes from a
row of the input via `mkHistoryItem`; emitted urls were not in the seen
set; emitted urls are pairwise distinct. -/
theorem history_loop_spec :
    ∀ (hist : List HistoryRow) (seen : List String),
      (∀ it ∈ history_loop hist seen, ∃ r, r ∈ hist ∧ it = mkHistoryItem r) ∧
      (∀ it ∈ history_loop hist seen, it.subtext ∉ seen) ∧
      ((history_loop hist seen).map (fun it => it.subtext)).Nodup := by
  intro hist
  induction hist with
  | nil => intro seen; simp [history_loop]
  | cons r rest ih =>
    intro seen
    rw [history_loop]
    by_cases hu : r.url ∈ seen
    · rw [if_pos hu]
      obtain ⟨hmem, hnew, hnd⟩ := ih seen
      exact ⟨fun it hit =>
          (hmem it hit).imp (fun r' hp => ⟨List.mem_cons_of_mem _ hp.1, hp.2⟩),
        hnew, hnd⟩
    · rw [if_neg hu]
      obtain ⟨hmem, hnew, hnd⟩ := ih (r.url :: seen)
      have hsubtext : (mkHistoryItem r).subtext = r.url := rfl
      refine ⟨?_, ?_, ?_⟩
      · intro it hit
        rcases List.mem_cons.mp hit with hit' | hit'
        · exact ⟨r, List.mem_cons_self r rest, hit'⟩
        · exact (hmem it hit').imp (fun r' hp => ⟨List.mem_cons_of_mem _ hp.1, hp.2⟩)
      · intro it hit
        rcases List.mem_cons.mp hit with hit' | hit'
        · subst hit'
          rw [hsubtext]
          exact hu
        · exact fun hc => (hnew it hit') (List.mem_cons_of_mem _ hc)
      · simp only [List.map_cons, hsubtext]
        refine List.nodup_cons.mpr ⟨?_, hnd⟩
        intro hc
        obtain ⟨it, hit, hiteq⟩ := List.mem_map.mp hc
        exact (hnew it hit) (hiteq ▸ List.mem_cons_self _ _)

/-- A successful `build_index_items` run decomposes into a successful
bookmark loop followed by the (possibly empty) history pass over the same
seen set. -/
theorem build_index_items_eq (bs : List BookmarkRow) (fav : FaviconDict)
    (hist : List HistoryRow) (flag : Bool) (items : List IndexedItem)
    (h : build_index_items bs fav hist flag = .ok items) :
    ∃ bitems seen fp, bookmarks_loop fav bs [] none = .ok (bitems, seen, fp) ∧
      items = bitems ++ (if flag then history_loop hist seen else []) := by
  rw [build_index_items] at h
  cases hbl : bookmarks_loop fav bs [] none with
  | error e =>
    rw [hbl] at h
    exact Except.noConfusion h
  | ok trip =>
    obtain ⟨bitems, seen, fp⟩ := trip
    simp only [hbl] at h
    cases flag with
    | false =>
      rw [if_neg Bool.false_ne_true] at h
      simp only [Except.ok.injEq] at h
      exact ⟨bitems, seen, fp, rfl, by simp [h.symm]⟩
    | true =>
      rw [if_pos rfl] at h
      simp only [Except.ok.injEq] at h
      exact ⟨bitems, seen, fp, rfl, by simp [h.symm]⟩

/-- Claim C3: for every pair of extractor outputs and any history-flag
value, a successfully built index has pairwise-distinct item URLs; and a
URL occurring among the bookmark rows yields exactly one item, which is a
bookmark item — in particular the history pass never adds an item for a
URL already emitted by the bookmark pass. -/
theorem index_items_dedup (bs : List BookmarkRow) (fav : FaviconDict)
    (hist : List HistoryRow) (flag : Bool) (items : List IndexedItem)
    (h : build_index_items bs fav hist flag = .ok items) :
    (items.map (fun it => it.subtext)).Nodup ∧
    (∀ u, u ∈ bs.map BookmarkRow.url →
      (items.map (fun it => it.subtext)).count u = 1 ∧
      ∀ it ∈ items, it.subtext = u → it.source = Source.bookmark) := by
  obtain ⟨bitems, seen, fp, hbl, hitems⟩ :=
    build_index_items_eq bs fav hist flag items h
  obtain ⟨hmem, _, hnd, hseen, hcov⟩ :=
    bookmarks_loop_spec fav bs [] none bitems seen fp hbl
  obtain ⟨_, hhnew, hhnd⟩ := history_loop_spec hist seen
  have hbsub : ∀ u, u ∈ bitems.map (fun it => it.subtext) → u ∈ seen := by
    intro u hu
    exact (hseen u).mpr (Or.inr hu)
  have hsrc : ∀ it ∈ bitems, it.source = Source.bookmark := by
    intro it hit
    obtain ⟨r, icon, _, rfl⟩ := hmem it hit
    rfl
  have hhist_nin : ∀ u, u ∈ seen →
      u ∉ (if flag then history_loop hist seen else []).map (fun it => it.subtext) := by
    intro u hu hc
    obtain ⟨it, hit, hiteq⟩ := List.mem_map.mp hc
    cases flag with
    | false => simp at hit
    | true =>
      rw [if_pos rfl] at hit
      exact (hhnew it hit) (hiteq ▸ hu)
  have hhist_nd :
      ((if flag then history_loop hist seen else []).map (fun it => it.subtext)).Nodup := by
    cases flag with
    | false => simp
    | true => rw [if_pos rfl]; exact hhnd
  subst hitems
  constructor
  · rw [List.map_append]
    refine List.nodup_append.mpr ⟨hnd, hhist_nd, ?_⟩
    intro u hu hc
    exact hhist_nin u (hbsub u hu) hc
  · intro u hu
    obtain ⟨r, hr, rfl⟩ := List.mem_map.mp hu
    have hu_seen : r.url ∈ seen := hcov r hr
    have hu_b : r.url ∈ bitems.map (fun it => it.subtext) := by
      rcases (hseen r.url).mp hu_seen with hin | hin
      · exact absurd hin (List.not_mem_nil _)
      · exact hin
    constructor
    · rw [List.map_append, List.count_append,
        List.count_eq_one_of_mem hnd hu_b,
        List.count_eq_zero.mpr (hhist_nin r.url hu_seen)]
    · intro it hit hsub
      rcases List.mem_append.mp hit with hit' | hit'
      · exact hsrc it hit'
      · exact absurd (List.mem_map.mpr ⟨it, hit', hsub⟩) (hhist_nin r.url hu_seen)

/-- Witness for C3: one bookmark and one history row sharing a URL, with
history indexing enabled, yield a single bookmark item for that URL. -/
theorem index_items_dedup_witness :
    ((List.map (fun it => it.subtext)
        [(⟨"g1", "A", "http://a.com", IconSpec.faviconFile "favicon_g1.png",
           Source.bookmark, "a http://a.com"⟩ : IndexedItem)]).count "http://a.com" = 1 ∧
      ∀ it ∈ [(⟨"g1", "A", "http://a.com", IconSpec.faviconFile "favicon_g1.png",
           Source.bookmark, "a http://a.com"⟩ : IndexedItem)],
        it.subtext = "http://a.com" → it.source = Source.bookmark) :=
  (index_items_dedup [⟨"g1", some "A", "http://a.com", 1⟩] [(1, [7])]
      [⟨"h1", some "B", "http://a.com"⟩] true _ rfl).2 "http://a.com" (by decide)

/-- Claim C6 is a code bug: when the first bookmark processed has no
truthy favicon data, the fallback icon lambda's default argument
`p=favicon_path` references the still-unassigned local `favicon_path`, so
the loop raises `UnboundLocalError` instead of resolving the globe-glyph
fallback — the whole build aborts. -/
theorem favicon_fallback_unbound_local :
    build_index_items [⟨"g1", some "Example", "http://example.com", 47⟩] [] [] false =
      .error (.unboundLocal "local variable favicon_path referenced before assignment") := rfl

/-- Claim C8: every item of a successfully built index carries the fields
of some source record: display text is the record's title when truthy,
else the record's url; the subtitle is the url; and the search string is
the lower-cased f-string rendering of title and url. -/
theorem index_item_fields (bs : List BookmarkRow) (fav : FaviconDict)
    (hist : List HistoryRow) (flag : Bool) (items : List IndexedItem)
    (h : build_index_items bs fav hist flag = .ok items) :
    ∀ it ∈ items,
      (∃ r, r ∈ bs ∧ it.id = r.guid ∧
        it.text = (if pyTruthyStr r.title then pyStr r.title else r.url) ∧
        it.subtext = r.url ∧
        it.string = pyLower (pyStr r.title ++ " " ++ r.url)) ∨
      (∃ r, r ∈ hist ∧ it.id = r.guid ∧
        it.text = (if pyTruthyStr r.title then pyStr r.title else r.url) ∧
        it.subtext = r.url ∧
        it.string = pyLower (pyStr r.title ++ " " ++ r.url)) := by
  obtain ⟨bitems, seen, fp, hbl, hitems⟩ :=
    build_index_items_eq bs fav hist flag items h
  obtain ⟨hmem, _, _, _, _⟩ := bookmarks_loop_spec fav bs [] none bitems seen fp hbl
  obtain ⟨hhmem, _, _⟩ := history_loop_spec hist seen
  subst hitems
  intro it hit
  rcases List.mem_append.mp hit with hit' | hit'
  · obtain ⟨r, icon, hr, rfl⟩ := hmem it hit'
    exact Or.inl ⟨r, hr, rfl, rfl, rfl, rfl⟩
  · cases flag with
    | false => simp at hit'
    | true =>
      rw [if_pos rfl] at hit'
      obtain ⟨r, hr, rfl⟩ := hhmem it hit'
      exact Or.inr ⟨r, hr, rfl, rfl, rfl, rfl⟩

/-- Witness for C8 at the spec's own example: title "My Site" and url
"http://EX.com" produce search string "my site http://ex.com". -/
theorem index_item_fields_witness :
    (∃ r, r ∈ [(⟨"g1", some "My Site", "http://EX.com", 1⟩ : BookmarkRow)] ∧
      (⟨"g1", "My Site", "http://EX.com", IconSpec.faviconFile "favicon_g1.png",
         Source.bookmark, "my site http://ex.com"⟩ : IndexedItem).id = r.guid ∧
      (⟨"g1", "My Site", "http://EX.com", IconSpec.faviconFile "favicon_g1.png",
         Source.bookmark, "my site http://ex.com"⟩ : IndexedItem).text =
        (if pyTruthyStr r.title then pyStr r.title else r.url) ∧
      (⟨"g1", "My Site", "http://EX.com", IconSpec.faviconFile "favicon_g1.png",
         Source.bookmark, "my site http://ex.com"⟩ : IndexedItem).subtext = r.url ∧
      (⟨"g1", "My Site", "http://EX.com", IconSpec.faviconFile "favicon_g1.png",
         Source.bookmark, "my site http://ex.com"⟩ : IndexedItem).string =
        pyLower (pyStr r.title ++ " " ++ r.url)) ∨
    (∃ r, r ∈ ([] : List HistoryRow) ∧
      (⟨"g1", "My Site", "http://EX.com", IconSpec.faviconFile "favicon_g1.png",
         Source.bookmark, "my site http://ex.com"⟩ : IndexedItem).id = r.guid ∧
      (⟨"g1", "My Site", "http://EX.com", IconSpec.faviconFile "favicon_g1.png",
         Source.bookmark, "my site http://ex.com"⟩ : IndexedItem).text =
        (if pyTruthyStr r.title then pyStr r.title else r.url) ∧
      (⟨"g1", "My Site", "http://EX.com", IconSpec.faviconFile "favicon_g1.png",
         Source.bookmark, "my site http://ex.com"⟩ : IndexedItem).subtext = r.url ∧
      (⟨"g1", "My Site", "http://EX.com", IconSpec.faviconFile "favicon_g1.png",
         Source.bookmark, "my site http://ex.com"⟩ : IndexedItem).string =
        pyLower (pyStr r.title ++ " " ++ r.url)) :=
  index_item_fields [⟨"g1", some "My Site", "http://EX.com", 1⟩] [(1, [7])] [] false
    _ rfl _ (List.mem_singleton.mpr rfl)

/-- Claim C9: a record whose title is NULL yields an item whose display
text falls back to the url, but whose search string begins with the
literal rendering "none" of the null title, followed by a space and the
lower-cased url — so such items match queries containing "none". -/
theorem null_title_item_fields (r : BookmarkRow) (hr : HistoryRow) (icon : IconSpec)
    (h1 : r.title = none) (h2 : hr.title = none) :
    (mkBookmarkItem r icon).text = r.url ∧
    (mkBookmarkItem r icon).string = "none " ++ pyLower r.url ∧
    (mkHistoryItem hr).text = hr.url ∧
    (mkHistoryItem hr).string = "none " ++ pyLower hr.url := by
  refine ⟨?_, ?_, ?_, ?_⟩
  · show make_item_text r.title r.url = r.url
    rw [h1]
    rfl
  · show make_search_string r.title r.url = _
    rw [h1, make_search_string_none]
  · show make_item_text hr.title hr.url = hr.url
    rw [h2]
    rfl
  · show make_search_string hr.title hr.url = _
    rw [h2, make_search_string_none]

/-- Witness for C9 at a concrete null-title record. -/
theorem null_title_item_fields_witness :
    (mkBookmarkItem ⟨"g", none, "http://A.com", 3⟩ IconSpec.globeGlyph).text =
      "http://A.com" ∧
    (mkBookmarkItem ⟨"g", none, "http://A.com", 3⟩ IconSpec.globeGlyph).string =
      "none http://a.com" := by
  have h := null_title_item_fields ⟨"g", none, "http://A.com", 3⟩
    ⟨"h", none, "http://B.com"⟩ IconSpec.globeGlyph rfl rfl
  exact ⟨h.1, h.2.1.trans (by decide)⟩

/-- The single-flight checker distributes over trace concatenation. -/
theorem sfRun_append (l1 l2 : List SchedEvent) (b : Bool) :
    sfRun b (l1 ++ l2) = (sfRun b l1).bind (fun b' => sfRun b' l2) := by
  induction l1 generalizing b with
  | nil => simp [sfRun]
  | cons e rest ih =>
    cases e with
    | start i c => cases b <;> simp [sfRun, ih]
    | finish i => cases b <;> simp [sfRun, ih]

/-- On a trace accepted by the single-flight checker, the running-worker
count is the final flag: it never exceeds one. -/
theorem sfRun_foldl : ∀ (l : List SchedEvent) (b b' : Bool), sfRun b l = some b' →
    l.foldl schedStep b.toNat = b'.toNat := by
  intro l
  induction l with
  | nil =>
    intro b b' h
    simp [sfRun] at h
    subst h
    rfl
  | cons e rest ih =>
    intro b b' h
    cases e with
    | start i c =>
      cases b with
      | false =>
        simp only [sfRun, if_neg Bool.false_ne_true] at h
        simpa [schedStep] using ih true b' h
      | true => simp [sfRun] at h
    | finish i =>
      cases b with
      | false => simp [sfRun] at h
      | true =>
        simp only [sfRun, if_pos rfl] at h
        simpa [schedStep] using ih false b' h

/-- Every prefix of a trace accepted by the single-flight checker is
itself accepted. -/
theorem sfRun_take : ∀ (l : List SchedEvent) (b b' : Bool), sfRun b l = some b' →
    ∀ n, ∃ b'', sfRun b (l.take n) = some b'' := by
  intro l
  induction l with
  | nil =>
    intro b b' _ n
    exact ⟨b, by simp [sfRun]⟩
  | cons e rest ih =>
    intro b b' h n
    cases n with
    | zero => exact ⟨b, rfl⟩
    | succ m =>
      rw [List.take_succ_cons]
      cases e with
      | start i c =>
        cases b with
        | false =>
          simp only [sfRun, if_neg Bool.false_ne_true] at h ⊢
          exact ih true b' h m
        | true => simp [sfRun] at h
      | finish i =>
        cases b with
        | false => simp [sfRun] at h
        | true =>
          simp only [sfRun, if_pos rfl] at h ⊢
          exact ih false b' h m

/-- One trigger preserves the scheduler invariant: the trace stays
single-flight with the flag tracking the in-flight worker, and every
started worker is either finished in the trace or is the in-flight one. -/
theorem updateIndexItems_inv (c : Config) (s : SchedState)
    (h1 : sfRun false s.trace = some s.active.isSome)
    (h2 : ∀ i cc, SchedEvent.start i cc ∈ s.trace →
      SchedEvent.finish i ∈ s.trace ∨ ∃ c2, s.active = some (i, c2)) :
    sfRun false (updateIndexItems c s).trace =
      some (updateIndexItems c s).active.isSome ∧
    (∀ i cc, SchedEvent.start i cc ∈ (updateIndexItems c s).trace →
      SchedEvent.finish i ∈ (updateIndexItems c s).trace ∨
      ∃ c2, (updateIndexItems c s).active = some (i, c2)) := by
  cases hact : s.active with
  | none =>
    have htr : (updateIndexItems c s).trace =
        s.trace ++ [SchedEvent.start s.nextId c] := by
      simp [updateIndexItems, hact]
    have hactive : (updateIndexItems c s).active = some (s.nextId, c) := by
      simp [updateIndexItems, hact]
    rw [hact] at h1
    constructor
    · rw [htr, sfRun_append, h1, hactive]
      simp [sfRun]
    · intro i cc hmem
      rw [htr] at hmem
      rcases List.mem_append.mp hmem with hm | hm
      · rcases h2 i cc hm with hf | ⟨c2, hc2⟩
        · left
          rw [htr]
          exact List.mem_append_left _ hf
        · rw [hact] at hc2
          exact Option.noConfusion hc2
      · right
        rw [List.mem_singleton] at hm
        cases hm
        exact ⟨c, hactive⟩
  | some p =>
    obtain ⟨j, cj⟩ := p
    have htr : (updateIndexItems c s).trace =
        s.trace ++ [SchedEvent.finish j, SchedEvent.start s.nextId c] := by
      simp [updateIndexItems, hact]
    have hactive : (updateIndexItems c s).active = some (s.nextId, c) := by
      simp [updateIndexItems, hact]
    rw [hact] at h1
    constructor
    · rw [htr, sfRun_append, h1, hactive]
      simp [sfRun]
    · intro i cc hmem
      rw [htr] at hmem
      rcases List.mem_append.mp hmem with hm | hm
      · rcases h2 i cc hm with hf | ⟨c2, hc2⟩
        · left
          rw [htr]
          exact List.mem_append_left _ hf
        · rw [hact] at hc2
          left
          rw [htr]
          refine List.mem_append_right _ ?_
          rw [show i = j from (congrArg Prod.fst (Option.some.inj hc2)).symm]
          exact List.mem_cons_self _ _
      · rcases List.mem_cons.mp hm with hm' | hm'
        · exact SchedEvent.noConfusion hm'
        · right
          rw [List.mem_singleton] at hm'
          cases hm'
          exact ⟨c, hactive⟩

/-- The whole trigger sequence preserves the scheduler invariant. -/
theorem sched_foldl_inv (cfgs : List Config) :
    ∀ (s : SchedState),
      sfRun false s.trace = some s.active.isSome →
      (∀ i c, SchedEvent.start i c ∈ s.trace →
        SchedEvent.finish i ∈ s.trace ∨ ∃ cc, s.active = some (i, cc)) →
      sfRun false (cfgs.foldl (fun t c => updateIndexItems c t) s).trace =
        some (cfgs.foldl (fun t c => updateIndexItems c t) s).active.isSome ∧
      (∀ i c,
        SchedEvent.start i c ∈ (cfgs.foldl (fun t c => updateIndexItems c t) s).trace →
        SchedEvent.finish i ∈ (cfgs.foldl (fun t c => updateIndexItems c t) s).trace ∨
        ∃ cc, (cfgs.foldl (fun t c => updateIndexItems c t) s).active = some (i, cc)) := by
  induction cfgs with
  | nil =>
    intro s h1 h2
    exact ⟨h1, h2⟩
  | cons c cs ih =>
    intro s h1 h2
    obtain ⟨h1', h2'⟩ := updateIndexItems_inv c s h1 h2
    simpa using ih (updateIndexItems c s) h1' h2'

/-- The final join empties the scheduler: the trace is single-flight and
closed (flag back to idle), no worker is in flight, and every started
worker has finished. -/
theorem joinFinal_inv (s : SchedState)
    (h1 : sfRun false s.trace = some s.active.isSome)
    (h2 : ∀ i c, SchedEvent.start i c ∈ s.trace →
      SchedEvent.finish i ∈ s.trace ∨ ∃ cc, s.active = some (i, cc)) :
    sfRun false (joinFinal s).trace = some false ∧
    (joinFinal s).active = none ∧
    (∀ i c, SchedEvent.start i c ∈ (joinFinal s).trace →
      SchedEvent.finish i ∈ (joinFinal s).trace) := by
  cases hact : s.active with
  | none =>
    have hjf : joinFinal s = s := by simp [joinFinal, hact]
    rw [hact] at h1
    refine ⟨by rw [hjf]; simpa using h1, by rw [hjf]; exact hact, ?_⟩
    intro i c hmem
    rw [hjf] at hmem ⊢
    rcases h2 i c hmem with hf | ⟨cc, hc⟩
    · exact hf
    · rw [hact] at hc
      exact Option.noConfusion hc
  | some p =>
    obtain ⟨j, cj⟩ := p
    have htr : (joinFinal s).trace = s.trace ++ [SchedEvent.finish j] := by
      simp [joinFinal, hact]
    have hactive : (joinFinal s).active = none := by
      simp [joinFinal, hact]
    rw [hact] at h1
    refine ⟨?_, hactive, ?_⟩
    · rw [htr, sfRun_append, h1]
      simp [sfRun]
    · intro i c hmem
      rw [htr] at hmem ⊢
      rcases List.mem_append.mp hmem with hm | hm
      · rcases h2 i c hm with hf | ⟨cc, hc⟩
        · exact List.mem_append_left _ hf
        · rw [hact] at hc
          refine List.mem_append_right _ ?_
          rw [show i = j from (congrArg Prod.fst (Option.some.inj hc)).symm]
          exact List.mem_singleton.mpr rfl
      · rw [List.mem_singleton] at hm
        exact SchedEvent.noConfusion hm

/-- The configuration snapshot of the worker started by a trigger is that
trigger's configuration. -/
theorem updateIndexItems_active (c : Config) (s : SchedState) :
    ∃ k, (updateIndexItems c s).active = some (k, c) := by
  cases hact : s.active with
  | none => exact ⟨s.nextId, by simp [updateIndexItems, hact]⟩
  | some p => exact ⟨s.nextId, by simp [updateIndexItems, hact]⟩

/-- The index installed after the whole trigger sequence is the one built
from the last trigger's configuration. -/
theorem runTriggers_installed_last (cfgs : List Config) (h : cfgs ≠ []) :
    (runTriggers cfgs).installed = some (cfgs.getLast h) := by
  rcases List.eq_nil_or_concat cfgs with rfl | ⟨l, c, rfl⟩
  · exact absurd rfl h
  · have hlast : (l.concat c).getLast h = c := by
      simp [List.concat_eq_append, List.getLast_append]
    have hfold : runTriggers (l.concat c) =
        joinFinal (updateIndexItems c
          (l.foldl (fun s c => updateIndexItems c s) initSched)) := by
      rw [runTriggers, List.concat_eq_append, List.foldl_append, List.foldl_cons,
        List.foldl_nil]
    obtain ⟨k, hk⟩ := updateIndexItems_active c
      (l.foldl (fun s c => updateIndexItems c s) initSched)
    rw [hlast, hfold]
    simp [joinFinal, hk]

/-- Claim C7: for every sequence of refresh triggers issued by the host
control thread, at most one refresh worker is active at any point of the
generated trace; every started worker runs to completion (its finish event
is in the trace — no cancellation); after the final join no worker is in
flight; and the installed index reflects the configuration read at the
start of the last run — the last trigger's configuration, never an
intermediate one. -/
theorem scheduler_single_flight (cfgs : List Config) :
    (∀ n, activeCount ((runTriggers cfgs).trace.take n) ≤ 1) ∧
    (∀ i c, SchedEvent.start i c ∈ (runTriggers cfgs).trace →
      SchedEvent.finish i ∈ (runTriggers cfgs).trace) ∧
    (runTriggers cfgs).active = none ∧
    (∀ h : cfgs ≠ [], (runTriggers cfgs).installed = some (cfgs.getLast h)) := by
  have hinit1 : sfRun false initSched.trace = some initSched.active.isSome := rfl
  have hinit2 : ∀ i c, SchedEvent.start i c ∈ initSched.trace →
      SchedEvent.finish i ∈ initSched.trace ∨ ∃ cc, initSched.active = some (i, cc) := by
    intro i c hmem
    simp [initSched] at hmem
  obtain ⟨hf1, hf2⟩ := sched_foldl_inv cfgs initSched hinit1 hinit2
  obtain ⟨hj1, hj2, hj3⟩ := joinFinal_inv _ hf1 hf2
  rw [show runTriggers cfgs =
      joinFinal (List.foldl (fun t c => updateIndexItems c t) initSched cfgs) from rfl]
  refine ⟨?_, hj3, hj2, fun h => runTriggers_installed_last cfgs h⟩
  intro n
  obtain ⟨b'', hb⟩ := sfRun_take _ false false hj1 n
  have hcount := sfRun_foldl _ false b'' hb
  rw [activeCount]
  rw [show (false : Bool).toNat = 0 from rfl] at hcount
  rw [hcount]
  cases b'' <;> simp

/-- Witness for C7 at two back-to-back triggers (profile change then
history-flag change): the trace stays single-flight and the installed
index reflects the second trigger's configuration. -/
theorem scheduler_single_flight_witness :
    activeCount ((runTriggers
        [⟨"a.default", false⟩, ⟨"b.default", true⟩]).trace.take 3) ≤ 1 ∧
    (runTriggers [⟨"a.default", false⟩, ⟨"b.default", true⟩]).installed =
      some ⟨"b.default", true⟩ :=
  ⟨(scheduler_single_flight [⟨"a.default", false⟩, ⟨"b.default", true⟩]).1 3,
   ((scheduler_single_flight [⟨"a.default", false⟩, ⟨"b.default", true⟩]).2.2.2
      (by simp)).trans (by rw [show ([⟨"a.default", false⟩, ⟨"b.default", true⟩]
        : List Config).getLast (by simp) = ⟨"b.default", true⟩ from rfl])⟩

end Firefox
